import Mathlib

/-!
Verification of the output-reconstruction pipeline of `src/sherpa/sp_handler.py`
(Vietnamese ASR serverless handler).

The development shallowly embeds the three pure components of the handler:

* `extract_result_from_output` (source lines 67-101): scanning the engine's
  two output streams for a JSON result record, with a regex fallback;
* `create_word_segments` (source lines 103-144): reconstructing word-level
  time segments from per-token timestamps;
* `handler` (source lines 149-283): the per-job control flow from the point
  where the collaborator results are available, producing the returned
  payload and the persisted artifact content.

Modelling conventions:

* Python strings are `List Char`.  Python floats are modelled as `ℚ`
  (`round(x, 2)` becomes `round2`, floor-based half-up rounding implemented
  with integer operations; every concrete timestamp used in this file is an
  exact two-decimal value, where any rounding convention agrees).
* `json.loads` is Python standard library, not repository code; it is an
  external collaborator and is passed in as a parameter
  `p : List Char → Option JsonObj`, returning `none` exactly when the parse
  raises `json.JSONDecodeError`, and otherwise the parsed object restricted
  to the fields the handler reads (the handler would crash on objects whose
  `text` field is not a string, a case outside every claim considered here).
  Likewise `base64.b64encode` is passed in as an opaque `b64` parameter.
* Whitespace (`str.strip`, regex `\s`) is modelled as the six ASCII
  whitespace characters; the inputs exercised here are ASCII.
* I/O identities (job id, elapsed time, file paths) are omitted from the
  payload model; the artifact component of the `handler` result is `none`
  exactly when the source writes no artifact file.
-/

namespace SpHandler

/-! Section: Python string primitives -/

/-- The whitespace characters recognised by `str.strip` / regex `\s`
(ASCII fragment). -/
def isPySpace (c : Char) : Bool :=
  c = ' ' || c = '\t' || c = '\n' || c = '\r' || c = '\x0b' || c = '\x0c'

/-- Python `s.strip()`: remove leading and trailing whitespace. -/
def pyStrip (cs : List Char) : List Char :=
  ((cs.dropWhile isPySpace).reverse.dropWhile isPySpace).reverse

/-- Python `s.startswith(pre)`. -/
def startswith (pre cs : List Char) : Bool :=
  pre.isPrefixOf cs

/-- Python `needle in hay` (substring containment). -/
def containsSub (needle : List Char) : List Char → Bool
  | [] => needle.isEmpty
  | c :: cs => needle.isPrefixOf (c :: cs) || containsSub needle cs

/-- Python `s.split('\n')`.  `splitOnNl [] = [[]]` just as `''.split('\n') == ['']`. -/
def splitOnNl : List Char → List (List Char)
  | [] => [[]]
  | c :: cs =>
    let r := splitOnNl cs
    if c = '\n' then [] :: r else (c :: r.headD []) :: r.tail

/-- Python `round(q, 2)` on exact rationals: `⌊100·q + 1/2⌋ / 100`, written with
integer operations (`⌊(200·num + den) / (2·den)⌋` over a reduced fraction) so
that it evaluates inside the kernel.  Ties and binary-float artifacts of the
Python `round` are not modelled; all concrete inputs in this file are exact
two-decimal values, on which every rounding convention is the identity. -/
def round2 (q : ℚ) : ℚ :=
  Rat.divInt (Int.fdiv (200 * q.num + (q.den : ℤ)) (2 * (q.den : ℤ))) 100

/-- The opening brace character (source: `line.startswith('{')`). -/
def lbrace : Char := '\x7b'

/-- The closing brace character. -/
def rbrace : Char := '\x7d'

/-- Characters allowed by the regex class `[^{}]`. -/
def isNonBrace (c : Char) : Bool :=
  !(c = lbrace || c = rbrace)

/-! Section: Result extractor (`extract_result_from_output`, source lines 67-101) -/

/-- The fields of a parsed JSON line that `extract_result_from_output` reads.
`json.loads` (standard library) is modelled as a parameter returning this
shape; a `none` field means the key is absent from the parsed object. -/
structure JsonObj where
  text : Option (List Char)
  timestamps : Option (List ℚ)
  tokens : Option (List (List Char))
  words : Option (List (List Char))
deriving DecidableEq

/-- The dict returned by `extract_result_from_output`
(`{"text": ..., "timestamps": ..., "tokens": ..., "words": ...}`). -/
structure RecognitionRecord where
  text : List Char
  timestamps : List ℚ
  tokens : List (List Char)
  words : List (List Char)
deriving DecidableEq

/-- Substring marker `'"text"'` from the line filter (source line 77). -/
def textMarker : List Char := "\"text\"".data

/-- Substring marker `'"timestamps"'` from the line filter (source line 77). -/
def timestampsMarker : List Char := "\"timestamps\"".data

/-- One iteration of Method 1 (source lines 75-88): strip the line, filter on
shape markers, parse it, and accept it when the parsed `text` is non-empty
after stripping.  Returns `none` when the loop would `continue`. -/
def tryLine (p : List Char → Option JsonObj) (line : List Char) :
    Option RecognitionRecord :=
  let l := pyStrip line
  if startswith [lbrace] l && containsSub textMarker l &&
      containsSub timestampsMarker l then
    match p l with
    | some obj =>
      match obj.text with
      | some t =>
        if (pyStrip t).isEmpty then none
        else some ⟨pyStrip t, obj.timestamps.getD [], obj.tokens.getD [],
          obj.words.getD []⟩
      | none => none
    | none => none
  else none

/-- Method 1 (source lines 75-88): the first line whose structured parse is
accepted wins. -/
def method1 (p : List Char → Option JsonObj) (combined : List Char) :
    Option RecognitionRecord :=
  (splitOnNl combined).findSome? (tryLine p)

/-! Method 2 (source lines 90-99) applies
`re.findall(r'\{[^{}]*"text"\s*:\s*"([^"]*)"[^{}]*\}', combined)`.
The pattern is embedded as a bespoke matcher with Python's leftmost,
non-overlapping, greedy-with-backtracking semantics.  Only the first
`[^{}]*` needs true backtracking (`tryA` prefers the longest brace-free
prefix); every later sub-pattern is forced, because the character that has
to follow each greedy run can never itself belong to the run's class. -/

/-- Match a literal character sequence, returning the rest of the input. -/
def dropLit : List Char → List Char → Option (List Char)
  | [], cs => some cs
  | a :: lit, c :: cs => if c = a then dropLit lit cs else none
  | _ :: _, [] => none

/-- Match the forced tail `"text"\s*:\s*"([^"]*)"[^{}]*\}` of the fallback
pattern; returns the captured group and the input remaining after the match. -/
def matchTail (cs : List Char) : Option (List Char × List Char) := do
  let cs ← dropLit textMarker cs
  let cs := cs.dropWhile isPySpace
  let cs ← dropLit [':'] cs
  let cs := cs.dropWhile isPySpace
  let cs ← dropLit ['"'] cs
  let (cap, cs) := cs.span (fun c => c != '"')
  let cs ← dropLit ['"'] cs
  let cs := cs.dropWhile isNonBrace
  let cs ← dropLit [rbrace] cs
  some (cap, cs)

/-- Backtracking for the leading `[^{}]*`: greedily extend the brace-free run
first (Python tries the longest run first), falling back to matching the tail
at the current position. -/
def tryA : List Char → Option (List Char × List Char)
  | [] => matchTail []
  | c :: cs => (if isNonBrace c then tryA cs else none) <|> matchTail (c :: cs)

/-- Try to match the full fallback pattern at the current position. -/
def matchAt : List Char → Option (List Char × List Char)
  | c :: cs => if c = lbrace then tryA cs else none
  | [] => none

/-- `re.findall` driver: scan left to right, emit each capture, resume after
the matched text.  Fuelled recursion; every successful match consumes at
least the two brace characters, so `length + 1` units of fuel always
suffice. -/
def findallAux : Nat → List Char → List (List Char)
  | 0, _ => []
  | _ + 1, [] => []
  | fuel + 1, c :: cs =>
    match matchAt (c :: cs) with
    | some (cap, rest) => cap :: findallAux fuel rest
    | none => findallAux fuel cs

/-- All captures of the fallback regex over the combined text, in match
order. -/
def findall (cs : List Char) : List (List Char) :=
  findallAux (cs.length + 1) cs

/-- The combined stream scanned by the extractor:
`stderr + "\n" + stdout` (source line 72; diagnostic stream first). -/
def combinedOf (stdout stderr : List Char) : List Char :=
  stderr ++ '\n' :: stdout

/-- `extract_result_from_output(stdout, stderr)` (source lines 67-101):
Method 1 line scan, then the regex fallback taking the last match
(`matches[-1].strip()`), then the all-empty record. -/
def extract_result_from_output (p : List Char → Option JsonObj)
    (stdout stderr : List Char) : RecognitionRecord :=
  let combined := combinedOf stdout stderr
  match method1 p combined with
  | some r => r
  | none =>
    match (findall combined).getLast? with
    | some m => ⟨pyStrip m, [], [], []⟩
    | none => ⟨[], [], [], []⟩

/-! Section: Word segmenter (`create_word_segments`, source lines 103-144) -/

/-- One `{"word": ..., "start": ..., "end": ...}` segment. -/
structure WordSegment where
  word : List Char
  start : ℚ
  «end» : ℚ
deriving DecidableEq

/-- The loop state of `create_word_segments`: the emitted segments, the
accumulating word, and the timestamp at which it began (`None` before the
first iteration). -/
structure SegState where
  segments : List WordSegment
  current_word : List Char
  word_start : Option ℚ
deriving DecidableEq

/-- The body of the `for i, (token, ts) in enumerate(zip(tokens, timestamps))`
loop (source lines 115-134), transcribed clause by clause.  Note that the
source strips the token *before* testing `token.startswith(' ')`. -/
def segStep (timestamps : List ℚ) (i : Nat) (st : SegState)
    (token : List Char) (ts : ℚ) : SegState :=
  let token := pyStrip token
  if startswith [' '] token || i == 0 then
    let segments :=
      match st.word_start with
      | some ws =>
        if st.current_word.isEmpty then st.segments
        else
          let word_end := if i > 0 then timestamps.getD (i - 1) 0 else ts
          st.segments ++ [⟨pyStrip st.current_word, round2 ws, round2 word_end⟩]
      | none => st.segments
    { segments := segments, current_word := token, word_start := some ts }
  else
    { st with current_word := st.current_word ++ token }

/-- The full loop, threading the index `i`. -/
def segLoop (timestamps : List ℚ) :
    Nat → List (List Char × ℚ) → SegState → SegState
  | _, [], st => st
  | i, (token, ts) :: rest, st =>
    segLoop timestamps (i + 1) rest (segStep timestamps i st token ts)

/-- `create_word_segments(text, timestamps, tokens)` (source lines 103-144).
The `text` argument is accepted, as in the source, and never read. -/
def create_word_segments (text : List Char) (timestamps : List ℚ)
    (tokens : List (List Char)) : List WordSegment :=
  if timestamps.isEmpty || tokens.isEmpty ||
      timestamps.length != tokens.length then []
  else
    let st := segLoop timestamps 0 (tokens.zip timestamps) ⟨[], [], none⟩
    match st.word_start with
    | some ws =>
      if st.current_word.isEmpty then st.segments
      else st.segments ++
        [⟨pyStrip st.current_word, round2 ws, round2 (timestamps.getLastD 0)⟩]
    | none => st.segments

/-! Section: Handler control flow (`handler`, source lines 149-283) -/

/-- The fixed placeholder substituted for an empty transcript
(source line 220). -/
def PLACEHOLDER : List Char := "(No transcript detected)".data

/-- Python `s[-500:]`: the stderr truncation used in error payloads
(source line 211). -/
def tail500 (cs : List Char) : List Char :=
  cs.drop (cs.length - 500)

/-- The returned payload, one constructor per `return` statement of
`handler`.  Job id, elapsed time and filesystem paths are I/O identities and
are omitted; each constructor carries exactly the data-bearing fields of the
corresponding dict, and only the error constructors carry an `error` field. -/
inductive Payload where
  | inputError : Payload
  | conversionError (details : List Char) : Payload
  | modelError : Payload
  | engineError (returncode : ℤ) (stderrTail : List Char) : Payload
  | textResult (text : List Char) : Payload
  | base64Result (text_b64 : List Char) : Payload
  | jsonResult (text : List Char) (timestamps : List ℚ)
      (tokens : List (List Char)) (word_segments : List WordSegment)
      (num_tokens num_words : Nat) : Payload
deriving DecidableEq

/-- The JSON document written to the output file (source lines 237-239): the
mutated `asr_result` dict, whose `word_segments` key exists only when the
segment step ran. -/
abbrev Artifact := RecognitionRecord × Option (List WordSegment)

/-- `handler(job)` (source lines 149-283) from the point where the
collaborator outcomes are known: whether the audio path exists, the ffmpeg
exit status and diagnostics, whether the model files resolve, and the
recognition engine's exit status and streams.  Returns the payload together
with the artifact content, `none` when no artifact file is written. -/
def handler (p : List Char → Option JsonObj)
    (b64 : List Char → List Char)
    (audio_exists : Bool) (ffmpeg_returncode : ℤ) (ffmpeg_stderr : List Char)
    (model_found : Bool) (include_timestamps : Bool)
    (return_format : List Char)
    (returncode : ℤ) (stdout stderr : List Char) : Payload × Option Artifact :=
  if !audio_exists then (Payload.inputError, none)
  else if ffmpeg_returncode ≠ 0 then (Payload.conversionError ffmpeg_stderr, none)
  else if !model_found then (Payload.modelError, none)
  else if returncode ≠ 0 then
    (Payload.engineError returncode (tail500 stderr), none)
  else
    let asr := extract_result_from_output p stdout stderr
    let transcript := if asr.text.isEmpty then PLACEHOLDER else asr.text
    let asr := if asr.text.isEmpty then { asr with text := PLACEHOLDER } else asr
    let word_segments : Option (List WordSegment) :=
      if include_timestamps && !asr.timestamps.isEmpty then
        some (create_word_segments transcript asr.timestamps asr.tokens)
      else none
    let payload :=
      if return_format = "text".data then Payload.textResult transcript
      else if return_format = "base64".data then
        Payload.base64Result (b64 transcript)
      else
        Payload.jsonResult transcript asr.timestamps asr.tokens
          (word_segments.getD []) asr.tokens.length (word_segments.getD []).length
    (payload, some (asr, word_segments))

/-! Concrete instances used by the counterexamples and witnesses below. -/

/-- Concrete JSON line used to refute claim C3 as stated: its `text` field
value carries surrounding whitespace. -/
def lineC3 : List Char :=
  "\x7b\"text\": \" hi \", \"timestamps\": [1]\x7d".data

/-- The object `json.loads` produces on `lineC3`. -/
def objC3 : JsonObj := ⟨some " hi ".data, some [1], none, none⟩

/-- A parse oracle behaving exactly as `json.loads` does on the single line
this counterexample exercises. -/
def pC3 : List Char → Option JsonObj :=
  fun l => if l = lineC3 then some objC3 else none
/-- Concrete instances for the witness of the amended claim C3: one noise
line precedes the qualifying line. -/
def lineC3w : List Char :=
  "\x7b\"text\": \"ok\", \"timestamps\": [2]\x7d".data

/-- The parsed object of `lineC3w`. -/
def objC3w : JsonObj := ⟨some "ok".data, some [2], some [['o'], ['k']], none⟩

/-- A parse oracle for the witness, matching `json.loads` on `lineC3w`. -/
def pC3w : List Char → Option JsonObj :=
  fun l => if l = lineC3w then some objC3w else none
/-- Concrete JSON line used to refute claim C4: one timestamp but two
tokens, exactly what `json.loads` would produce on this line. -/
def lineC4 : List Char :=
  "\x7b\"text\": \"x\", \"timestamps\": [1], \"tokens\": [\"a\", \"b\"]\x7d".data

/-- The parsed object of `lineC4`: mismatched sequence lengths. -/
def objC4 : JsonObj := ⟨some ['x'], some [1], some [['a'], ['b']], none⟩

/-- A parse oracle behaving exactly as `json.loads` does on `lineC4`. -/
def pC4 : List Char → Option JsonObj :=
  fun l => if l = lineC4 then some objC4 else none
/-- A consistent parse oracle for the witness of the amended claim C4. -/
def objC4w : JsonObj := ⟨some ['x'], some [1, 2], some [['a'], ['b']], none⟩

/-- Witness oracle: every parse yields the consistent `objC4w`. -/
def pC4w : List Char → Option JsonObj := fun _ => some objC4w

/-- A line whose shape passes the Method-1 filter, for the C4 witness. -/
def lineC4w : List Char :=
  "\x7b\"text\": \"x\", \"timestamps\": [1, 2]\x7d".data
/-- Concrete stream used to refute claim C6 as stated: Method 1 cannot fire
(no `"timestamps"` marker), and the single fallback match captures `" x "`,
whose value carries surrounding whitespace. -/
def sC6 : List Char := "\x7b\"text\": \" x \"\x7d".data
/-- A stream with two fallback matches, for the C6 witness: the later
match wins. -/
def sC6w : List Char :=
  "\x7b\"text\": \"part\"\x7d \x7b\"text\": \"final\"\x7d".data

/-! Section: Lemma layer: stripped strings -/

theorem dropWhile_head_false {α} (p : α → Bool) :
    ∀ (l : List α) (c : α) (t : List α), l.dropWhile p = c :: t → p c = false := by
  intro l
  induction l with
  | nil => intro c t h; simp [List.dropWhile] at h
  | cons a l ih =>
    intro c t h
    rw [List.dropWhile_cons] at h
    by_cases ha : p a = true
    · rw [if_pos ha] at h
      exact ih c t h
    · rw [if_neg ha] at h
      injection h with h1 _
      rw [← h1]
      exact Bool.eq_false_iff.mpr ha

theorem dropWhile_dropWhile {α} (p : α → Bool) (l : List α) :
    (l.dropWhile p).dropWhile p = l.dropWhile p := by
  cases h : l.dropWhile p with
  | nil => rfl
  | cons c t =>
    rw [List.dropWhile_cons, dropWhile_head_false p l c t h]
    simp

/-- The stripped string is a prefix of the string with only its leading
whitespace removed. -/
theorem pyStrip_prefix_dropWhile (cs : List Char) :
    pyStrip cs <+: cs.dropWhile isPySpace := by
  unfold pyStrip
  have h : (cs.dropWhile isPySpace).reverse.dropWhile isPySpace <:+
      (cs.dropWhile isPySpace).reverse := List.dropWhile_suffix _
  have h2 := Iff.mpr List.reverse_prefix h
  rwa [List.reverse_reverse] at h2

theorem pyStrip_head_false (cs : List Char) (c : Char) (t : List Char)
    (h : pyStrip cs = c :: t) : isPySpace c = false := by
  have hp := pyStrip_prefix_dropWhile cs
  rw [h] at hp
  obtain ⟨r, hr⟩ := hp
  exact dropWhile_head_false isPySpace cs c (t ++ r)
    (by rw [← hr, List.cons_append])

/-- A stripped token can never start with a space: the source's
`token.strip()` makes the subsequent `token.startswith(' ')` test dead. -/
theorem startswith_space_pyStrip (cs : List Char) :
    startswith [' '] (pyStrip cs) = false := by
  cases h : pyStrip cs with
  | nil => rfl
  | cons c t =>
    have hc := pyStrip_head_false cs c t h
    show List.isPrefixOf [' '] (c :: t) = false
    have hcs : (' ' == c) = false := by
      cases hec : (' ' == c) with
      | false => rfl
      | true =>
        exfalso
        have : ' ' = c := beq_iff_eq.mp hec
        rw [← this] at hc
        exact absurd hc (by decide)
    simp [List.isPrefixOf, hcs]

theorem pyStrip_idem (cs : List Char) : pyStrip (pyStrip cs) = pyStrip cs := by
  have hl : (pyStrip cs).dropWhile isPySpace = pyStrip cs := by
    cases h : pyStrip cs with
    | nil => rfl
    | cons c t =>
      rw [List.dropWhile_cons, pyStrip_head_false cs c t h]
      simp
  have ht : (pyStrip cs).reverse.dropWhile isPySpace = (pyStrip cs).reverse := by
    have hrev : (pyStrip cs).reverse =
        (cs.dropWhile isPySpace).reverse.dropWhile isPySpace := by
      show ((((cs.dropWhile isPySpace).reverse.dropWhile isPySpace)).reverse).reverse = _
      rw [List.reverse_reverse]
    rw [hrev, dropWhile_dropWhile]
  show ((((pyStrip cs).dropWhile isPySpace).reverse).dropWhile isPySpace).reverse = pyStrip cs
  rw [hl, ht, List.reverse_reverse]

/-! Section: Lemma layer: the segmenter loop -/

/-- After the first iteration the boundary branch is unreachable: every later
token has already been stripped, so it cannot start with a space, and the
loop only ever appends to the accumulating word. -/
theorem segLoop_pos (timestamps : List ℚ) :
    ∀ (pairs : List (List Char × ℚ)) (i : Nat) (st : SegState), i ≠ 0 →
    segLoop timestamps i pairs st =
      { st with current_word :=
          st.current_word ++ (pairs.map (fun pr => pyStrip pr.1)).flatten } := by
  intro pairs
  induction pairs with
  | nil => intro i st _; simp [segLoop]
  | cons pr rest ih =>
    intro i st hi
    obtain ⟨tok, ts⟩ := pr
    rw [segLoop]
    have h2 : (i == 0) = false := by simpa using hi
    have hstep : segStep timestamps i st tok ts =
        { st with current_word := st.current_word ++ pyStrip tok } := by
      simp [segStep, startswith_space_pyStrip, h2]
    rw [hstep, ih (i + 1) _ (Nat.succ_ne_zero i)]
    simp [List.append_assoc]

/-! Section: Claims about the Word Segmenter -/

/-- Claim C1 is falsified by the code: with tokens `" A"`, `" B"` (both
carrying the leading-space marker) the claimed count is two segments, but
`create_word_segments` emits a single merged segment, because the source
strips each token before testing `token.startswith(' ')`, so the boundary
test can never succeed.  This theorem evaluates the code at that failing
input. -/
theorem marker_tokens_collapse_to_single_segment :
    create_word_segments [] [0, 1] [[' ', 'A'], [' ', 'B']] =
      [⟨['A', 'B'], 0, 1⟩] ∧
    (create_word_segments [] [0, 1] [[' ', 'A'], [' ', 'B']]).length ≠ 2 :=
  ⟨by decide, by decide⟩

/-- Claim C2 is falsified by the code: with tokens `" X"`, `" Y"` the marker
token at position 1 should close the word `X` with the previous token's
timestamp (`0`), yielding two segments; instead the loop never closes a word
at a marker token (the token is stripped before the `startswith(' ')` test)
and the single accumulated word is closed after the loop with the last
timestamp.  This theorem evaluates the code at that failing input: no
emitted segment ends at the previous token's timestamp. -/
theorem boundary_token_never_closes_word :
    create_word_segments [] [0, 2] [[' ', 'X'], [' ', 'Y']] =
      [⟨['X', 'Y'], 0, 2⟩] :=
  by decide

/-- Claim C5, as stated, is false: a single-token sequence whose token is all
whitespace (here `" "`) produces no segment at all, not one segment, because
the stripped accumulating word is empty and the final `if current_word`
guard skips the append. -/
theorem whitespace_token_yields_no_segment :
    (create_word_segments [] [3] [[' ']]).length ≠ 1 := by decide

/-- Claim C5 (amended): for equal-length non-empty token/timestamp sequences
in which no token after the first carries a leading-space marker and at
least one token is non-empty after stripping, the segmenter returns exactly
one segment, whose word is the concatenation of the stripped tokens
(re-stripped), spanning the rounded first to the rounded last timestamp; in
particular a single-token sequence with a non-whitespace token produces one
segment whose start and end are both its (rounded) timestamp. -/
theorem no_marker_tokens_single_spanning_segment :
    (∀ (text : List Char) (timestamps : List ℚ) (tokens : List (List Char)),
      tokens ≠ [] → timestamps ≠ [] → timestamps.length = tokens.length →
      (∀ tk ∈ tokens.tail, startswith [' '] tk = false) →
      (∃ tk ∈ tokens, pyStrip tk ≠ []) →
      create_word_segments text timestamps tokens =
        [⟨pyStrip (tokens.map pyStrip).flatten,
          round2 (timestamps.headD 0), round2 (timestamps.getLastD 0)⟩]) ∧
    (∀ (text : List Char) (t : ℚ) (tk : List Char), pyStrip tk ≠ [] →
      create_word_segments text [t] [tk] =
        [⟨pyStrip tk, round2 t, round2 t⟩]) := by
  constructor
  · intro text timestamps tokens htok hts hlen _ hne
    cases tokens with
    | nil => exact absurd rfl htok
    | cons tk0 tks =>
      cases timestamps with
      | nil => exact absurd rfl hts
      | cons t0 ts =>
        have hlen' : ts.length = tks.length := by simpa using hlen
        have hguard : ((t0 :: ts : List ℚ).isEmpty ||
            (tk0 :: tks : List (List Char)).isEmpty ||
            ((t0 :: ts : List ℚ).length != (tk0 :: tks).length)) = false := by
          simp [hlen]
        rw [create_word_segments, if_neg (by rw [hguard]; simp)]
        have hstep0 : segStep (t0 :: ts) 0 ⟨[], [], none⟩ tk0 t0 =
            ⟨[], pyStrip tk0, some t0⟩ := by
          simp [segStep]
        rw [List.zip_cons_cons, segLoop, hstep0,
          segLoop_pos (t0 :: ts) _ 1 _ (by decide)]
        have hmap : (tks.zip ts).map (fun pr => pyStrip pr.1) =
            tks.map pyStrip := by
          have : (tks.zip ts).map (fun pr => pyStrip pr.1) =
              ((tks.zip ts).map Prod.fst).map pyStrip := by
            rw [List.map_map]
            rfl
          rw [this, List.map_fst_zip tks ts (le_of_eq hlen'.symm)]
        have hcw : pyStrip tk0 ++ ((tks.zip ts).map (fun pr => pyStrip pr.1)).flatten
            = ((tk0 :: tks).map pyStrip).flatten := by
          rw [hmap]
          simp
        have hflat : ((tk0 :: tks).map pyStrip).flatten ≠ [] := by
          rw [ne_eq, List.flatten_eq_nil_iff]
          intro hall
          obtain ⟨tk, hmem, hne'⟩ := hne
          exact hne' (hall (pyStrip tk) (List.mem_map_of_mem pyStrip hmem))
        simp only [hcw]
        simp [hflat, List.isEmpty_iff]
        intro h0
        by_contra hno
        push_neg at hno
        apply hflat
        rw [List.flatten_eq_nil_iff]
        intro l hl
        obtain ⟨x, hx, rfl⟩ := List.mem_map.mp hl
        rcases List.mem_cons.mp hx with rfl | hx'
        · exact h0
        · exact hno x hx'
  · intro text t tk hne
    have hstep0 : segStep [t] 0 ⟨[], [], none⟩ tk t =
        ⟨[], pyStrip tk, some t⟩ := by
      simp [segStep]
    simp [create_word_segments, segLoop, hstep0, pyStrip_idem,
      List.isEmpty_iff, hne]

/-- Witness for the amended claim C5 at concrete inputs: tokens
`["ab", "cd"]` with timestamps `[1, 2]` (general conjunct) and the
single-token instance `["hi"]` at timestamp `3`. -/
theorem no_marker_tokens_single_spanning_segment_witness :
    (([1, 2] : List ℚ).length = ([['a', 'b'], ['c', 'd']] : List (List Char)).length) ∧
    (∃ tk ∈ ([['a', 'b'], ['c', 'd']] : List (List Char)), pyStrip tk ≠ []) ∧
    create_word_segments [] [1, 2] [['a', 'b'], ['c', 'd']] =
      [⟨pyStrip (([['a', 'b'], ['c', 'd']] : List (List Char)).map pyStrip).flatten,
        round2 (([1, 2] : List ℚ).headD 0), round2 (([1, 2] : List ℚ).getLastD 0)⟩] ∧
    create_word_segments [] [(3 : ℚ)] [['h', 'i']] =
      [⟨pyStrip ['h', 'i'], round2 3, round2 3⟩] :=
  ⟨by decide, by decide,
    no_marker_tokens_single_spanning_segment.1 [] [1, 2] [['a', 'b'], ['c', 'd']]
      (by decide) (by decide) (by decide) (by decide) (by decide),
    no_marker_tokens_single_spanning_segment.2 [] 3 ['h', 'i'] (by decide)⟩

/-- Claim C7 (confirmed): mismatched-length or empty inputs always yield the
empty segment sequence; the guard at source lines 108-109 returns before the
loop, and the embedded function is total, so no failure is raised. -/
theorem mismatched_or_empty_inputs_yield_no_segments
    (text : List Char) (timestamps : List ℚ) (tokens : List (List Char))
    (h : timestamps = [] ∨ tokens = [] ∨ timestamps.length ≠ tokens.length) :
    create_word_segments text timestamps tokens = [] := by
  rw [create_word_segments]
  rcases h with h | h | h
  · simp [h]
  · simp [h]
  · have hb : (timestamps.length != tokens.length) = true := by simpa using h
    simp [hb]

/-- Witness for claim C7 at a concrete mismatched input: one timestamp,
two tokens. -/
theorem mismatched_or_empty_inputs_yield_no_segments_witness :
    (([1] : List ℚ).length ≠ ([['a'], ['b']] : List (List Char)).length) ∧
    create_word_segments [] [1] [['a'], ['b']] = [] :=
  ⟨by decide,
    mismatched_or_empty_inputs_yield_no_segments [] [1] [['a'], ['b']]
      (Or.inr (Or.inr (by decide)))⟩

/-- Claim C10 (confirmed): the `text` argument of `create_word_segments` is
never read, so the output is fully determined by the tokens and timestamps
alone. -/
theorem segments_independent_of_text (t1 t2 : List Char) (timestamps : List ℚ)
    (tokens : List (List Char)) :
    create_word_segments t1 timestamps tokens =
      create_word_segments t2 timestamps tokens := rfl

/-! Section: Lemma layer: the extractor -/

theorem findSome?_append_none {α β : Type} (f : α → Option β) :
    ∀ (l1 l2 : List α), (∀ a ∈ l1, f a = none) →
    List.findSome? f (l1 ++ l2) = List.findSome? f l2 := by
  intro l1
  induction l1 with
  | nil => intro l2 _; rfl
  | cons a l ih =>
    intro l2 h
    rw [List.cons_append, List.findSome?_cons, h a (List.mem_cons_self a l)]
    exact ih l2 (fun x hx => h x (List.mem_cons_of_mem a hx))

theorem findSome?_some_mem {α β : Type} (f : α → Option β) :
    ∀ (l : List α) (b : β), List.findSome? f l = some b →
    ∃ a ∈ l, f a = some b := by
  intro l
  induction l with
  | nil => intro b h; simp [List.findSome?] at h
  | cons a l ih =>
    intro b h
    rw [List.findSome?_cons] at h
    cases hfa : f a with
    | some c =>
      rw [hfa] at h
      exact ⟨a, List.mem_cons_self a l, by rw [hfa]; exact h⟩
    | none =>
      rw [hfa] at h
      obtain ⟨x, hx, hfx⟩ := ih b h
      exact ⟨x, List.mem_cons_of_mem a hx, hfx⟩

/-- Inversion for a successful Method-1 line: the accepted record comes from
a parsed object with a non-empty-after-strip text field, and carries that
object's sequences over unchanged (defaulting to empty when absent). -/
theorem tryLine_some {p : List Char → Option JsonObj} {line : List Char}
    {r : RecognitionRecord} (h : tryLine p line = some r) :
    ∃ obj t, p (pyStrip line) = some obj ∧ obj.text = some t ∧
      (pyStrip t).isEmpty = false ∧
      r = ⟨pyStrip t, obj.timestamps.getD [], obj.tokens.getD [],
        obj.words.getD []⟩ := by
  simp only [tryLine] at h
  split at h
  · split at h
    · rename_i obj hobj
      split at h
      · rename_i t htext
        split at h
        · exact absurd h (by simp)
        · rename_i he
          exact ⟨obj, t, hobj, htext, Bool.eq_false_iff.mpr he,
            (Option.some.inj h).symm⟩
      · exact absurd h (by simp)
    · exact absurd h (by simp)
  · exact absurd h (by simp)

/-! Section: Claims about the Result Extractor -/


/-- Claim C3, as stated, is false: the first qualifying line parses with text
value `" hi "` (non-empty after trimming), but the extractor does not return
that text unchanged — it returns the *stripped* text `"hi"`
(source line 82: `obj['text'].strip()`). -/
theorem extract_text_not_returned_unchanged :
    pC3 (pyStrip lineC3) = some objC3 ∧
    objC3.text = some " hi ".data ∧
    pyStrip " hi ".data ≠ [] ∧
    (extract_result_from_output pC3 lineC3 []).text ≠ " hi ".data := by
  refine ⟨by decide, by decide, by decide, by decide⟩

/-- Claim C3 (amended): the extractor returns the record of the first
qualifying line in forward line order — its parsed text *trimmed of
surrounding whitespace*, its timestamps and tokens carried over unchanged,
tokens and words defaulting to empty when absent — and the result does not
depend on any later line (`post` is arbitrary), so scanning stops at the
first valid hit. -/
theorem extract_first_qualifying_line_trimmed
    (p : List Char → Option JsonObj) (stdout stderr : List Char)
    (pre post : List (List Char)) (line : List Char) (obj : JsonObj)
    (t : List Char)
    (hsplit : splitOnNl (combinedOf stdout stderr) = pre ++ line :: post)
    (hpre : ∀ l ∈ pre, tryLine p l = none)
    (hfilter : (startswith [lbrace] (pyStrip line) &&
      containsSub textMarker (pyStrip line) &&
      containsSub timestampsMarker (pyStrip line)) = true)
    (hparse : p (pyStrip line) = some obj)
    (htext : obj.text = some t)
    (hne : (pyStrip t).isEmpty = false) :
    extract_result_from_output p stdout stderr =
      ⟨pyStrip t, obj.timestamps.getD [], obj.tokens.getD [],
        obj.words.getD []⟩ := by
  have hline : tryLine p line =
      some ⟨pyStrip t, obj.timestamps.getD [], obj.tokens.getD [],
        obj.words.getD []⟩ := by
    simp only [tryLine]
    rw [if_pos hfilter, hparse]
    simp [htext, hne]
  have hm : method1 p (combinedOf stdout stderr) =
      some ⟨pyStrip t, obj.timestamps.getD [], obj.tokens.getD [],
        obj.words.getD []⟩ := by
    rw [method1, hsplit, findSome?_append_none _ pre _ hpre,
      List.findSome?_cons, hline]
  simp only [extract_result_from_output]
  rw [hm]


/-- Witness for the amended claim C3: diagnostic stream holds one noise
line, primary stream holds the qualifying line; the extractor returns the
trimmed text with the parsed sequences. -/
theorem extract_first_qualifying_line_trimmed_witness :
    splitOnNl (combinedOf lineC3w "noise".data) =
      ["noise".data] ++ lineC3w :: [] ∧
    (∀ l ∈ (["noise".data] : List (List Char)), tryLine pC3w l = none) ∧
    extract_result_from_output pC3w lineC3w "noise".data =
      ⟨pyStrip "ok".data, objC3w.timestamps.getD [], objC3w.tokens.getD [],
        objC3w.words.getD []⟩ :=
  ⟨by decide, by decide,
    extract_first_qualifying_line_trimmed pC3w lineC3w "noise".data
      ["noise".data] [] lineC3w objC3w "ok".data (by decide) (by decide)
      (by decide) (by decide) (by decide) (by decide)⟩


/-- Claim C4, as stated, is false: the extractor performs no length check
(source lines 81-86 carry the parsed sequences over verbatim), so a parsed
line with one timestamp and two tokens is returned with both sequences
non-empty and of different lengths, rather than being emptied. -/
theorem extract_can_return_mismatched_lengths :
    (extract_result_from_output pC4 lineC4 []).timestamps ≠ [] ∧
    (extract_result_from_output pC4 lineC4 []).tokens ≠ [] ∧
    (extract_result_from_output pC4 lineC4 []).timestamps.length ≠
      (extract_result_from_output pC4 lineC4 []).tokens.length := by
  refine ⟨by decide, by decide, by decide⟩

/-- Claim C4 (amended): the extractor never *creates* a length mismatch — it
carries the parsed sequences over unchanged and leaves both empty in the
fallback and degraded paths — so whenever every record the JSON parser can
produce has equally many timestamps and tokens (as the engine's well-formed
records do), every returned `RecognitionRecord` satisfies
`len(timestamps) = len(tokens)`.  The invariant is inherited from the
parsed input, not enforced by the extractor. -/
theorem extract_preserves_length_invariant_of_parse
    (p : List Char → Option JsonObj)
    (hp : ∀ l obj, p l = some obj →
      (obj.timestamps.getD []).length = (obj.tokens.getD []).length)
    (stdout stderr : List Char) :
    (extract_result_from_output p stdout stderr).timestamps.length =
      (extract_result_from_output p stdout stderr).tokens.length := by
  simp only [extract_result_from_output]
  cases hm : method1 p (combinedOf stdout stderr) with
  | some r =>
    obtain ⟨line, _, hline⟩ :=
      findSome?_some_mem (tryLine p) (splitOnNl (combinedOf stdout stderr)) r
        (by rw [← method1]; exact hm)
    obtain ⟨obj, t, hobj, _, _, hr⟩ := tryLine_some hline
    rw [hr]
    exact hp _ obj hobj
  | none =>
    cases (findall (combinedOf stdout stderr)).getLast? <;> rfl


/-- Witness for the amended claim C4: with a length-consistent oracle the
returned record has equally long timestamp and token sequences (here the
Method-1 path fires on a qualifying line). -/
theorem extract_preserves_length_invariant_of_parse_witness :
    (∀ l obj, pC4w l = some obj →
      (obj.timestamps.getD []).length = (obj.tokens.getD []).length) ∧
    (extract_result_from_output pC4w lineC4w []).timestamps.length =
      (extract_result_from_output pC4w lineC4w []).tokens.length :=
  ⟨fun _ obj h => (Option.some.inj h) ▸ (by decide),
    extract_preserves_length_invariant_of_parse pC4w
      (fun _ obj h => (Option.some.inj h) ▸ (by decide)) lineC4w []⟩


/-- Claim C6, as stated, is false in one detail: the fallback does not
return the last match's captured text value as-is; it returns the captured
value *stripped* (source line 95: `matches[-1].strip()`). -/
theorem fallback_text_not_returned_unchanged :
    method1 (fun _ => none) (combinedOf sC6 []) = none ∧
    (findall (combinedOf sC6 [])).getLast? = some " x ".data ∧
    (extract_result_from_output (fun _ => none) sC6 []).text ≠ " x ".data := by
  refine ⟨by decide, by decide, by decide⟩

/-- Claim C6 (amended): when the per-line strategy yields nothing, the
extractor returns the *last* regex match's captured text trimmed of
surrounding whitespace, with timestamps, tokens and words all empty; and
when the pattern matches nothing either, it returns the all-empty record. -/
theorem fallback_last_match_and_degraded_empty :
    (∀ (p : List Char → Option JsonObj) (stdout stderr : List Char)
      (ms : List (List Char)) (m : List Char),
      method1 p (combinedOf stdout stderr) = none →
      findall (combinedOf stdout stderr) = ms ++ [m] →
      extract_result_from_output p stdout stderr = ⟨pyStrip m, [], [], []⟩) ∧
    (∀ (p : List Char → Option JsonObj) (stdout stderr : List Char),
      method1 p (combinedOf stdout stderr) = none →
      findall (combinedOf stdout stderr) = [] →
      extract_result_from_output p stdout stderr = ⟨[], [], [], []⟩) := by
  constructor
  · intro p s d ms m hm hf
    simp only [extract_result_from_output]
    rw [hm, hf, List.getLast?_concat]
  · intro p s d hm hf
    simp only [extract_result_from_output]
    rw [hm, hf]
    rfl


/-- Witness for the amended claim C6: a stream with two pattern matches
returns the last capture stripped (first conjunct), and a stream with no
match at all returns the all-empty record (second conjunct). -/
theorem fallback_last_match_and_degraded_empty_witness :
    method1 (fun _ => none) (combinedOf sC6w []) = none ∧
    findall (combinedOf sC6w []) = ["part".data] ++ ["final".data] ∧
    extract_result_from_output (fun _ => none) sC6w [] =
      ⟨pyStrip "final".data, [], [], []⟩ ∧
    method1 (fun _ => none) (combinedOf "no json".data []) = none ∧
    findall (combinedOf "no json".data []) = [] ∧
    extract_result_from_output (fun _ => none) "no json".data [] =
      ⟨[], [], [], []⟩ :=
  ⟨by decide, by decide,
    fallback_last_match_and_degraded_empty.1 (fun _ => none) sC6w []
      ["part".data] "final".data (by decide) (by decide),
    by decide, by decide,
    fallback_last_match_and_degraded_empty.2 (fun _ => none) "no json".data []
      (by decide) (by decide)⟩

/-! Section: Claims about the handler control flow -/

/-- An extraction result with empty text is the all-empty record: Method 1
only accepts non-empty stripped text, and both fallback paths leave
timestamps, tokens and words empty. -/
theorem extract_text_empty (p : List Char → Option JsonObj)
    (stdout stderr : List Char)
    (h : (extract_result_from_output p stdout stderr).text = []) :
    extract_result_from_output p stdout stderr = ⟨[], [], [], []⟩ := by
  simp only [extract_result_from_output] at h ⊢
  cases hm : method1 p (combinedOf stdout stderr) with
  | some r =>
    exfalso
    obtain ⟨line, _, hline⟩ :=
      findSome?_some_mem (tryLine p) (splitOnNl (combinedOf stdout stderr)) r
        (by rw [← method1]; exact hm)
    obtain ⟨obj, t, _, _, hne, hr⟩ := tryLine_some hline
    rw [hm] at h
    have hr' : r.text = [] := h
    have ht : pyStrip t = [] := by rw [hr] at hr'; exact hr'
    rw [ht] at hne
    exact absurd hne (by simp)
  | none =>
    rw [hm] at h
    cases hl : (findall (combinedOf stdout stderr)).getLast? with
    | some m =>
      have hm' : pyStrip m = [] := by rw [hl] at h; exact h
      show (⟨pyStrip m, [], [], []⟩ : RecognitionRecord) = ⟨[], [], [], []⟩
      rw [hm']
    | none => rfl

/-- Claim C8 (confirmed): when the engine exits with status zero but the
extracted text is empty, the handler substitutes the fixed placeholder
string, returns a successful JSON payload (a constructor with no error
field) with empty word segments, and still writes the artifact, whose
record carries the placeholder text. -/
theorem empty_transcript_placeholder_success
    (p : List Char → Option JsonObj) (b64 : List Char → List Char)
    (ffmpeg_stderr : List Char) (include_timestamps : Bool)
    (stdout stderr : List Char)
    (h : (extract_result_from_output p stdout stderr).text = []) :
    handler p b64 true 0 ffmpeg_stderr true include_timestamps "json".data 0
      stdout stderr =
      (Payload.jsonResult PLACEHOLDER [] [] [] 0 0,
        some (⟨PLACEHOLDER, [], [], []⟩, none)) := by
  have hx := extract_text_empty p stdout stderr h
  have h1 : ¬("json".data = "text".data) := by decide
  have h2 : ¬("json".data = "base64".data) := by decide
  simp [handler, hx, h1, h2]

/-- Witness for claim C8: engine exit 0, primary stream empty, diagnostic
stream a single unrelated log line. -/
theorem empty_transcript_placeholder_success_witness :
    (extract_result_from_output (fun _ => none) [] "log line".data).text = [] ∧
    handler (fun _ => none) id true 0 [] true true "json".data 0 []
      "log line".data =
      (Payload.jsonResult PLACEHOLDER [] [] [] 0 0,
        some (⟨PLACEHOLDER, [], [], []⟩, none)) :=
  ⟨by decide,
    empty_transcript_placeholder_success (fun _ => none) id [] true []
      "log line".data (by decide)⟩

/-- Claim C9 (confirmed): when the engine exits with a non-zero status the
handler returns the engine-error payload — an error constructor carrying the
returncode and the last 500 characters of the diagnostic stream — and the
artifact component is `none`: no artifact file is written on this path
(source lines 206-212 return before the write at lines 237-239). -/
theorem engine_failure_error_payload_no_artifact
    (p : List Char → Option JsonObj) (b64 : List Char → List Char)
    (ffmpeg_stderr : List Char) (include_timestamps : Bool)
    (return_format : List Char) (returncode : ℤ) (stdout stderr : List Char)
    (h : returncode ≠ 0) :
    handler p b64 true 0 ffmpeg_stderr true include_timestamps return_format
      returncode stdout stderr =
      (Payload.engineError returncode (tail500 stderr), none) := by
  simp [handler, h]

/-- Witness for claim C9 at the spec's example: engine killed with exit
status 137. -/
theorem engine_failure_error_payload_no_artifact_witness :
    ((137 : ℤ) ≠ 0) ∧
    handler (fun _ => none) id true 0 [] true true "json".data 137 []
      "boom".data =
      (Payload.engineError 137 (tail500 "boom".data), none) :=
  ⟨by decide,
    engine_failure_error_payload_no_artifact (fun _ => none) id [] true
      "json".data 137 [] "boom".data (by decide)⟩

end SpHandler
